import Mathlib

/-!
Shallow embedding of the arpscan tool (Go).  The program scans all eligible
network interfaces: for each one it spawns a reply listener (`readARP`) and a
probe driver (the ticker loop of `scanIface` invoking `writeARP`), enumerates
the interface's IPv4 subnet (`ips`) and broadcasts one ARP request per
candidate address.  Machine integers (`uint32`) are modelled as `Nat` with
explicit `% 2 ^ 32` where the Go code performs wrapping arithmetic; Go byte
slices are `List Nat` (each element < 256 whenever it came from a `[]byte`);
a Go `panic` is modelled as `Option.none`; the external collaborators (pcap
handle, gopacket serializer, context cancellation, ticker) are modelled as
oracles supplied to the corresponding loop.
-/

/-- Model of `binary.BigEndian.PutUint32`: the four big-endian bytes of a
32-bit value. -/
def putUint32 (n : Nat) : List Nat :=
  [n / 2 ^ 24 % 256, n / 2 ^ 16 % 256, n / 2 ^ 8 % 256, n % 256]

/-- Model of `binary.BigEndian.Uint32`: reads the first four bytes of a slice
as a big-endian 32-bit value; a slice shorter than four bytes makes the Go
function panic, modelled by `none`. -/
def beUint32 : List Nat → Option Nat
  | b0 :: b1 :: b2 :: b3 :: _ => some (b0 * 2 ^ 24 + b1 * 2 ^ 16 + b2 * 2 ^ 8 + b3)
  | _ => none

/-- A byte slice: every element fits in one byte. -/
def ValidBytes (l : List Nat) : Prop := ∀ x ∈ l, x < 256

instance : DecidablePred ValidBytes := fun l =>
  inferInstanceAs (Decidable (∀ x ∈ l, x < 256))

/-- Population count of the low 32 bits, by 32 halving steps. -/
def popCountAux : Nat → Nat → Nat
  | 0, _ => 0
  | fuel + 1, n => n % 2 + popCountAux fuel (n / 2)

/-- Number of one bits of a 32-bit mask value. -/
def popCount32 (n : Nat) : Nat := popCountAux 32 n

/-- Loop body of `ips` (src/unnamed/part_000:233-239): while the running mask
value stays strictly below `0xffffffff`, append the current address and
increment both `uint32` counters.  The loop performs at most
`0xffffffff - mask` iterations, so fuel `2 ^ 32` never runs out for a mask
below `2 ^ 32`. -/
def ipsLoop : Nat → Nat → Nat → List (List Nat)
  | 0, _, _ => []
  | fuel + 1, num, mask =>
    if mask < 0xffffffff then
      putUint32 num :: ipsLoop fuel ((num + 1) % 2 ^ 32) ((mask + 1) % 2 ^ 32)
    else []

/-- Model of `ips` (src/unnamed/part_000:229-241), the subnet enumerator:
convert IP and mask to big-endian `uint32` (panic, i.e. `none`, when either
slice has fewer than four bytes), take `num &= mask`, then emit every
address while the running mask stays below `0xffffffff`. -/
def ips (ip mask : List Nat) : Option (List (List Nat)) :=
  match beUint32 ip, beUint32 mask with
  | some a, some m => some (ipsLoop (2 ^ 32) (Nat.land a m % 2 ^ 32) m)
  | _, _ => none

/-- Model of Go `net.IP.To4`: a 4-byte address is returned as is; a 16-byte
IPv4-mapped address (ten zero bytes, then `0xff 0xff`) is shortened to its
last four bytes; anything else yields `nil` (`none`). -/
def to4 (ip : List Nat) : Option (List Nat) :=
  if ip.length = 4 then some ip
  else if ip.length = 16 ∧ (ip.take 10).all (fun x => x == 0) = true ∧
      ip.getD 10 0 = 255 ∧ ip.getD 11 0 = 255 then
    some (ip.drop 12)
  else none

/-- A `net.IPNet`: an address together with its mask, both byte slices. -/
structure IPNet where
  ip : List Nat
  mask : List Nat
deriving DecidableEq

/-- Address selection loop of `scanIface` (src/unnamed/part_000:92-114): the
result starts as the zero value `new(net.IPNet)` (empty IP, empty mask) and
is replaced by the first address whose `To4` is non-nil, with the mask cut
to its last four bytes; slicing `mask[len(mask)-4:]` panics (`none`) when
the mask of the selected address has fewer than four bytes. -/
def selectAddr : List IPNet → Option IPNet
  | [] => some ⟨[], []⟩
  | a :: rest =>
    match to4 a.ip with
    | some ip4 =>
      if 4 ≤ a.mask.length then some ⟨ip4, a.mask.drop (a.mask.length - 4)⟩
      else none
    | none => selectAddr rest

/-- Constant `layers.LinkTypeEthernet` of the frame model. -/
def LinkTypeEthernet : Nat := 1

/-- Constant `layers.EthernetTypeARP` (`0x0806`). -/
def EthernetTypeARP : Nat := 0x0806

/-- Constant `layers.EthernetTypeIPv4` (`0x0800`). -/
def EthernetTypeIPv4 : Nat := 0x0800

/-- Constant `layers.ARPRequest`. -/
def ARPRequest : Nat := 1

/-- Constant `layers.ARPReply`. -/
def ARPReply : Nat := 2

/-- The all-ones Ethernet broadcast address. -/
def broadcastMAC : List Nat := [0xff, 0xff, 0xff, 0xff, 0xff, 0xff]

/-- The Ethernet header built by `writeARP` (src/unnamed/part_000:184-188). -/
structure EthFrame where
  srcMAC : List Nat
  dstMAC : List Nat
  ethernetType : Nat
deriving DecidableEq

/-- The ARP layer built by `writeARP` (src/unnamed/part_000:189-198, with
`DstProtAddress` set per candidate at line 215). -/
structure ARPFrame where
  addrType : Nat
  protocol : Nat
  hwAddressSize : Nat
  protAddressSize : Nat
  operation : Nat
  sourceHwAddress : List Nat
  sourceProtAddress : List Nat
  dstHwAddress : List Nat
  dstProtAddress : List Nat
deriving DecidableEq

/-- A network interface; only the hardware address matters to the core. -/
structure Iface where
  hardwareAddr : List Nat
deriving DecidableEq

/-- The Ethernet header `writeARP` builds once per sweep. -/
def mkEth (hw : List Nat) : EthFrame :=
  { srcMAC := hw, dstMAC := broadcastMAC, ethernetType := EthernetTypeARP }

/-- The ARP layer `writeARP` builds for one candidate address `cand`. -/
def mkARP (hw srcIP cand : List Nat) : ARPFrame :=
  { addrType := LinkTypeEthernet
    protocol := EthernetTypeIPv4
    hwAddressSize := 6
    protAddressSize := 4
    operation := ARPRequest
    sourceHwAddress := hw
    sourceProtAddress := srcIP
    dstHwAddress := [0, 0, 0, 0, 0, 0]
    dstProtAddress := cand }

/-- The three ways the sweep loop of `writeARP` can end: completing the range
(`nil` error), observing cancellation (`context.Canceled`), or a failed
`WritePacketData` (the write error is returned). -/
inductive WriteResult where
  | ok
  | canceled
  | writeError
deriving DecidableEq

/-- Oracles for one sweep: `done i` is the result of the non-blocking
`ctx.Done()` check at iteration `i`; `serialize` is the external gopacket
`SerializeLayers` (a `none` models a serialization error, in which case the
shared buffer is modelled as keeping its previous contents); `writeOk i`
tells whether the `i`-th `WritePacketData` call succeeds. -/
structure SweepEnv where
  done : Nat → Bool
  serialize : EthFrame → ARPFrame → Option (List Nat)
  writeOk : Nat → Bool

/-- Observable trace of one sweep: how it ended, the payloads passed to
`WritePacketData` in order, the ARP layers built, and the candidates whose
serialization failed (each producing one WARN log line). -/
structure SweepTrace where
  result : WriteResult
  writes : List (List Nat)
  frames : List ARPFrame
  warns : List (List Nat)
deriving DecidableEq

/-- Per-candidate loop of `writeARP` (src/unnamed/part_000:206-222): check
cancellation first; otherwise set `DstProtAddress`, serialize (logging a
warning and leaving the buffer on failure), then write the buffer contents,
aborting the sweep when the write fails. -/
def sweepLoop (env : SweepEnv) (iface : Iface) (srcIP : List Nat) :
    List (List Nat) → List Nat → Nat → SweepTrace
  | [], _, _ => ⟨.ok, [], [], []⟩
  | ip :: rest, buf, i =>
    if env.done i then ⟨.canceled, [], [], []⟩
    else
      let arp := mkARP iface.hardwareAddr srcIP ip
      let buf2 := (env.serialize (mkEth iface.hardwareAddr) arp).getD buf
      let warn : List (List Nat) :=
        if (env.serialize (mkEth iface.hardwareAddr) arp).isNone then [ip] else []
      if env.writeOk i then
        let t := sweepLoop env iface srcIP rest buf2 (i + 1)
        ⟨t.result, buf2 :: t.writes, arp :: t.frames, warn ++ t.warns⟩
      else
        ⟨.writeError, [buf2], [arp], warn⟩

/-- Model of `writeARP` (src/unnamed/part_000:182-224): enumerate the subnet
(`none` models the panic inside `ips` on a short address or mask) and run the
sweep over it with an empty initial serialization buffer. -/
def writeARP (env : SweepEnv) (iface : Iface) (addr : IPNet) : Option SweepTrace :=
  (ips addr.ip addr.mask).map (fun cands => sweepLoop env iface addr.ip cands [] 0)

/-- The reference buffer sequence: one entry per candidate, each being the
serialization buffer contents after that candidate's serialization attempt
(the freshly serialized frame on success, the previous contents on failure). -/
def bufSeq (env : SweepEnv) (iface : Iface) (srcIP : List Nat) :
    List Nat → List (List Nat) → List (List Nat)
  | _, [] => []
  | buf, ip :: rest =>
    let buf2 := (env.serialize (mkEth iface.hardwareAddr)
      (mkARP iface.hardwareAddr srcIP ip)).getD buf
    buf2 :: bufSeq env iface srcIP buf2 rest

/-- One observed wake-up of the driver loop in `scanIface`
(src/unnamed/part_000:130-143): either the cancellation branch of the
`select` fires, or the ticker fires and one sweep runs with the given
oracles. -/
inductive DriverEvent where
  | ctxDone
  | tick (env : SweepEnv)

/-- How the driver loop of `scanIface` ends: `stopped` via the `ctx.Done()`
branch, `errored` via a non-nil `writeARP` result (cancellation mid-sweep or
write failure), or `running` when the supplied event list is exhausted while
the loop is still alive. -/
inductive DriverOutcome where
  | stopped
  | errored
  | running
deriving DecidableEq

/-- The ticker loop of `scanIface` (src/unnamed/part_000:130-143), returning
the outcome together with every payload written across all sweeps; `none`
models a panic propagating out of `writeARP`. -/
def driverLoop (iface : Iface) (addr : IPNet) :
    List DriverEvent → Option (DriverOutcome × List (List Nat))
  | [] => some (.running, [])
  | .ctxDone :: _ => some (.stopped, [])
  | .tick env :: rest =>
    match writeARP env iface addr with
    | none => none
    | some t =>
      match t.result with
      | .ok => (driverLoop iface addr rest).map (fun r => (r.1, t.writes ++ r.2))
      | _ => some (.errored, t.writes)

/-- A decoded inbound ARP layer as `readARP` consumes it. -/
structure ARPPacket where
  operation : Nat
  sourceHwAddress : List Nat
  sourceProtAddress : List Nat
deriving DecidableEq

/-- Per-frame decision of `readARP` (src/unnamed/part_000:160-175): the
decoded ARP layer (`none` when the frame has no ARP layer) is discarded
unless it is a reply whose source hardware address differs from the
interface's own; otherwise the discovery (protocol address, hardware
address) is logged. -/
def processPacket (ifaceHw : List Nat) (decoded : Option ARPPacket) :
    Option (List Nat × List Nat) :=
  match decoded with
  | none => none
  | some arp =>
    if arp.operation ≠ ARPReply ∨ ifaceHw = arp.sourceHwAddress then none
    else some (arp.sourceProtAddress, arp.sourceHwAddress)

/-- Discovery emission rule as the specification words it: emit exactly when
the frame decodes as an ARP reply whose source hardware address differs from
the interface's own hardware address. -/
def specEmits (ifaceHw : List Nat) (decoded : Option ARPPacket) :
    Option (List Nat × List Nat) :=
  match decoded with
  | none => none
  | some arp =>
    if arp.operation = ARPReply ∧ arp.sourceHwAddress ≠ ifaceHw then
      some (arp.sourceProtAddress, arp.sourceHwAddress)
    else none

/-- One observed wake-up of `readARP`: the cancellation branch of its
`select`, or the arrival of one frame with the given decoded ARP layer. -/
inductive ReaderEvent where
  | ctxDone
  | packet (decoded : Option ARPPacket)

/-- Model of the loop of `readARP` (src/unnamed/part_000:149-178): process
frames until cancellation, collecting the emitted discoveries in order. -/
def readARP (ifaceHw : List Nat) : List ReaderEvent → List (List Nat × List Nat)
  | [] => []
  | .ctxDone :: _ => []
  | .packet p :: rest =>
    match processPacket ifaceHw p with
    | some d => d :: readARP ifaceHw rest
    | none => readARP ifaceHw rest

/-- Log lines of `scanIface` that the claims refer to. -/
inductive LogMsg where
  | errAddrs
  | errOpen
  | scanStart
deriving DecidableEq

/-- Oracle inputs of one `scanIface` call: the result of `iface.Addrs()`
(`none` models the error return), whether `pcap.OpenLive` succeeds, and the
observed driver events. -/
structure IfaceScanEnv where
  addrsResult : Option (List IPNet)
  openOk : Bool
  events : List DriverEvent

/-- How one `scanIface` call ends. -/
inductive ScanOutcome where
  | skippedAddrsError
  | skippedNoAddrs
  | skippedOpenError
  | finished (o : DriverOutcome)
  | panicked
deriving DecidableEq

/-- Model of `scanIface` (src/unnamed/part_000:88-144): an `Addrs()` error is
logged and skips the interface; an empty address list skips it silently; the
address selection may panic on a short mask; an `OpenLive` failure is logged
and skips the interface; otherwise the scan start is logged and the driver
loop runs (a panic inside a sweep propagates). -/
def scanIface (iface : Iface) (env : IfaceScanEnv) : ScanOutcome × List LogMsg :=
  match env.addrsResult with
  | none => (.skippedAddrsError, [.errAddrs])
  | some addrs =>
    if addrs = [] then (.skippedNoAddrs, [])
    else
      match selectAddr addrs with
      | none => (.panicked, [])
      | some addr =>
        if env.openOk = false then (.skippedOpenError, [.errOpen])
        else
          match driverLoop iface addr env.events with
          | none => (.panicked, [.scanStart])
          | some (o, _) => (.finished o, [.scanStart])

/-- Model of the loop of `run` (src/unnamed/part_000:23-26): one independent
`scanIface` task per eligible interface. -/
def runScans (ps : List (Iface × IfaceScanEnv)) : List (ScanOutcome × List LogMsg) :=
  ps.map (fun p => scanIface p.1 p.2)

/-- A `sync.WaitGroup` counter operation. -/
inductive WgEvent where
  | add (n : Nat)
  | done
deriving DecidableEq

/-- The successive counter values of a WaitGroup after each operation. -/
def wgCounters (c : Int) : List WgEvent → List Int
  | [] => []
  | .add n :: rest => (c + n) :: wgCounters (c + n) rest
  | .done :: rest => (c - 1) :: wgCounters (c - 1) rest

/-- WaitGroup operations `run` generates for `k` healthy interfaces, in the
interleaving where the `k` `wg.Add(1)` calls of the `run` loop come first,
then the deferred `wg.Done()` of each `scanIface`, then the deferred
`wg.Done()` of each spawned `readARP` (whose matching `wg.Add(1)` at
src/unnamed/part_000:126 is commented out). -/
def runWgEvents (k : Nat) : List WgEvent :=
  List.replicate k (WgEvent.add 1) ++ List.replicate k WgEvent.done ++
    List.replicate k WgEvent.done

/-- Number of goroutines `run` and `scanIface` spawn for `k` healthy
interfaces: one `scanIface` and one `readARP` each. -/
def tasksSpawned (k : Nat) : Nat := 2 * k

/-- Number of `wg.Add(1)` calls `run` performs for `k` interfaces. -/
def wgAddCalls (k : Nat) : Nat := k

/-! ### Characterization of the subnet enumerator -/

theorem beUint32_eq_none_iff (b : List Nat) : beUint32 b = none ↔ b.length < 4 := by
  match b with
  | [] => simp [beUint32]
  | [b0] => simp [beUint32]
  | [b0, b1] => simp [beUint32]
  | [b0, b1, b2] => simp [beUint32]
  | b0 :: b1 :: b2 :: b3 :: rest => simp [beUint32]

theorem beUint32_lt (b : List Nat) (hv : ValidBytes b) (v : Nat)
    (h : beUint32 b = some v) : v < 2 ^ 32 := by
  match b with
  | [] => simp [beUint32] at h
  | [b0] => simp [beUint32] at h
  | [b0, b1] => simp [beUint32] at h
  | [b0, b1, b2] => simp [beUint32] at h
  | b0 :: b1 :: b2 :: b3 :: rest =>
    simp only [beUint32, Option.some.injEq] at h
    have h0 : b0 < 256 := hv b0 (by simp)
    have h1 : b1 < 256 := hv b1 (by simp)
    have h2 : b2 < 256 := hv b2 (by simp)
    have h3 : b3 < 256 := hv b3 (by simp)
    omega

theorem beUint32_putUint32 (n : Nat) (h : n < 2 ^ 32) :
    beUint32 (putUint32 n) = some n := by
  simp only [putUint32, beUint32, Option.some.injEq]
  omega

theorem ipsLoop_spec (d : Nat) : ∀ fuel num mask, mask = 0xffffffff - d →
    d ≤ 0xffffffff → num + d ≤ 0xffffffff → d ≤ fuel →
    ipsLoop fuel num mask = (List.range d).map (fun k => putUint32 (num + k)) := by
  induction d with
  | zero =>
    intro fuel num mask hmask _ _ _
    have : ¬ mask < 0xffffffff := by omega
    cases fuel with
    | zero => simp [ipsLoop]
    | succ f => simp [ipsLoop, this]
  | succ d ih =>
    intro fuel num mask hmask hd hnum hfuel
    cases fuel with
    | zero => omega
    | succ f =>
      have hlt : mask < 0xffffffff := by omega
      have hnum1 : (num + 1) % 2 ^ 32 = num + 1 := Nat.mod_eq_of_lt (by omega)
      have hmask1 : (mask + 1) % 2 ^ 32 = mask + 1 := Nat.mod_eq_of_lt (by omega)
      have hrec := ih f (num + 1) (mask + 1) (by omega) (by omega) (by omega) (by omega)
      simp only [ipsLoop, if_pos hlt, hnum1, hmask1, hrec]
      rw [List.range_succ_eq_map, List.map_cons, List.map_map]
      congr 1
      apply List.map_congr_left
      intro k _
      simp only [Function.comp_apply]
      congr 1
      omega

theorem ips_spec (ip mask : List Nat) (a m : Nat)
    (ha : beUint32 ip = some a) (hm : beUint32 mask = some m) (hmlt : m < 2 ^ 32) :
    ips ip mask =
      some ((List.range (0xffffffff - m)).map (fun k => putUint32 (Nat.land a m + k))) := by
  have hland : Nat.land a m ≤ m := Nat.and_le_right
  have hmod : Nat.land a m % 2 ^ 32 = Nat.land a m := Nat.mod_eq_of_lt (by omega)
  simp only [ips, ha, hm, hmod, Option.some.injEq]
  exact ipsLoop_spec (0xffffffff - m) (2 ^ 32) (Nat.land a m) m
    (by omega) (by omega) (by omega) (by omega)

set_option maxHeartbeats 1000000 in
theorem popCount32_prefixMask : ∀ p < 33, popCount32 (2 ^ 32 - 2 ^ (32 - p)) = p := by
  decide

/-- C1 (amended): for every address and every contiguous prefix mask /p
(value `2 ^ 32 - 2 ^ (32 - p)`, `p ≤ 32`), the subnet enumerator `ips`
produces exactly the ascending sequence of the `2 ^ (32 - p) - 1` addresses
`base, base + 1, …, base + 2 ^ (32 - p) - 2` where `base = address & mask`
(network address included, all-ones broadcast address excluded), its length
equals `2 ^ (32 - popcount mask) - 1`, and for a /32 mask it is empty.  The
original claim quantified over arbitrary masks, where the popcount formula
fails (see the counterexample). -/
theorem claim_c1 (p : Nat) (hp : p ≤ 32) (ip : List Nat) (_hv : ValidBytes ip)
    (a : Nat) (ha : beUint32 ip = some a) :
    ips ip (putUint32 (2 ^ 32 - 2 ^ (32 - p))) =
      some ((List.range (2 ^ (32 - p) - 1)).map
        (fun k => putUint32 (Nat.land a (2 ^ 32 - 2 ^ (32 - p)) + k))) ∧
    (∀ l, ips ip (putUint32 (2 ^ 32 - 2 ^ (32 - p))) = some l →
      l.length = 2 ^ (32 - popCount32 (2 ^ 32 - 2 ^ (32 - p))) - 1) ∧
    (p = 32 → ips ip (putUint32 (2 ^ 32 - 2 ^ (32 - p))) = some []) := by
  have h1 : 1 ≤ 2 ^ (32 - p) := Nat.one_le_two_pow
  have h2 : 2 ^ (32 - p) ≤ 2 ^ 32 := Nat.pow_le_pow_right (by omega) (by omega)
  have hm : beUint32 (putUint32 (2 ^ 32 - 2 ^ (32 - p))) =
      some (2 ^ 32 - 2 ^ (32 - p)) := beUint32_putUint32 _ (by omega)
  have hspec := ips_spec ip _ a _ ha hm (by omega)
  have hcount : (0xffffffff : Nat) - (2 ^ 32 - 2 ^ (32 - p)) = 2 ^ (32 - p) - 1 := by
    omega
  rw [hcount] at hspec
  refine ⟨hspec, ?_, ?_⟩
  · intro l hl
    rw [hspec, Option.some.injEq] at hl
    have hpc : popCount32 (2 ^ 32 - 2 ^ (32 - p)) = p := popCount32_prefixMask p (by omega)
    subst hl
    rw [hpc]
    simp
  · intro hp32
    subst hp32
    simpa using hspec

/-- Witness for C1: interface 192.168.1.10/30 (the specification's own
end-to-end scenario); the enumeration is 192.168.1.8, 192.168.1.9,
192.168.1.10. -/
theorem claim_c1_witness :
    ips [192, 168, 1, 10] (putUint32 (2 ^ 32 - 2 ^ (32 - 30))) =
      some ((List.range (2 ^ (32 - 30) - 1)).map
        (fun k => putUint32 (Nat.land 3232235786 (2 ^ 32 - 2 ^ (32 - 30)) + k))) :=
  (claim_c1 30 (by decide) [192, 168, 1, 10] (by decide) 3232235786 (by decide)).1

/-- Counterexample to C1 as stated: for the (non-contiguous) mask
255.255.255.253, whose 32-bit value 4294967293 has popcount 31, the claimed
length `2 ^ (32 - popcount) - 1 = 1` differs from the produced length 2. -/
theorem claim_c1_counterexample :
    ¬ Option.map List.length (ips [10, 0, 0, 0] [255, 255, 255, 253]) =
      some (2 ^ (32 - popCount32 4294967293) - 1) := by
  decide

/-! ### Reply listener -/

/-- C3: the reply listener emits a discovery record if and only if the frame
decodes as an ARP reply whose source hardware address differs from the
interface's own hardware address (the per-frame decision function equals the
rule worded by the specification, `specEmits`); the emitted record is the
(source protocol address, source hardware address) pair, every other frame
is discarded with no emission, and the loop accumulates exactly those
emissions. -/
theorem claim_c3 :
    (∀ hw p, processPacket hw p = specEmits hw p) ∧
    (∀ hw p, (processPacket hw p).isSome = true ↔
      ∃ arp, p = some arp ∧ arp.operation = ARPReply ∧ arp.sourceHwAddress ≠ hw) ∧
    (∀ hw arp, arp.operation = ARPReply → arp.sourceHwAddress ≠ hw →
      processPacket hw (some arp) = some (arp.sourceProtAddress, arp.sourceHwAddress)) ∧
    (∀ hw p evs, readARP hw (ReaderEvent.packet p :: evs) =
      (specEmits hw p).toList ++ readARP hw evs) := by
  have heq : ∀ hw p, processPacket hw p = specEmits hw p := by
    intro hw p
    cases p with
    | none => rfl
    | some arp =>
      simp only [processPacket, specEmits]
      by_cases h1 : arp.operation = ARPReply
      · by_cases h2 : hw = arp.sourceHwAddress
        · simp [h1, h2]
        · have h2' : ¬ arp.sourceHwAddress = hw := fun h => h2 h.symm
          simp [h1, h2, h2']
      · simp [h1]
  refine ⟨heq, ?_, ?_, ?_⟩
  · intro hw p
    rw [heq]
    cases p with
    | none => simp [specEmits]
    | some arp =>
      simp only [specEmits]
      by_cases h1 : arp.operation = ARPReply ∧ arp.sourceHwAddress ≠ hw
      · rw [if_pos h1]
        simp only [Option.isSome_some, true_iff]
        exact ⟨arp, rfl, h1.1, h1.2⟩
      · rw [if_neg h1]
        simp only [Option.isSome_none, Bool.false_eq_true, false_iff]
        rintro ⟨a, ha, h2, h3⟩
        cases ha
        exact h1 ⟨h2, h3⟩
  · intro hw arp h1 h2
    rw [heq]
    simp [specEmits, h1, h2]
  · intro hw p evs
    rw [show readARP hw (ReaderEvent.packet p :: evs) =
      (match processPacket hw p with
        | some d => d :: readARP hw evs
        | none => readARP hw evs) from rfl, heq]
    cases hp : specEmits hw p <;> simp

/-! ### Frame construction -/

theorem sweepLoop_frames (env : SweepEnv) (iface : Iface) (srcIP : List Nat) :
    ∀ cands buf i, ∃ m, m ≤ cands.length ∧
      (sweepLoop env iface srcIP cands buf i).frames =
        (cands.take m).map (mkARP iface.hardwareAddr srcIP) := by
  intro cands
  induction cands with
  | nil => exact fun buf i => ⟨0, by simp, by simp [sweepLoop]⟩
  | cons ip rest ih =>
    intro buf i
    by_cases hd : env.done i
    · exact ⟨0, by simp, by simp [sweepLoop, hd]⟩
    · by_cases hwk : env.writeOk i
      · obtain ⟨m, hm, hf⟩ := ih
          ((env.serialize (mkEth iface.hardwareAddr)
            (mkARP iface.hardwareAddr srcIP ip)).getD buf) (i + 1)
        refine ⟨m + 1, by simpa using hm, ?_⟩
        simp [sweepLoop, hd, hwk, hf]
      · exact ⟨1, by simp, by simp [sweepLoop, hd, hwk]⟩

/-- C7: every ARP request frame built by the probe driver has Ethernet
source equal to the interface's hardware address, Ethernet destination the
all-ones broadcast, Ethernet type ARP, hardware type Ethernet, protocol
type IPv4, hardware size 6, protocol size 4, operation request, sender
hardware/protocol addresses the interface's own pair, target hardware
address all zeros, and target protocol address the current candidate; and
during any sweep the built frames are exactly those for an initial segment
of the candidate sequence in order. -/
theorem claim_c7 :
    (∀ hw, (mkEth hw).srcMAC = hw ∧ (mkEth hw).dstMAC = List.replicate 6 255 ∧
      (mkEth hw).ethernetType = EthernetTypeARP) ∧
    (∀ hw srcIP cand,
      (mkARP hw srcIP cand).addrType = LinkTypeEthernet ∧
      (mkARP hw srcIP cand).protocol = EthernetTypeIPv4 ∧
      (mkARP hw srcIP cand).hwAddressSize = 6 ∧
      (mkARP hw srcIP cand).protAddressSize = 4 ∧
      (mkARP hw srcIP cand).operation = ARPRequest ∧
      (mkARP hw srcIP cand).sourceHwAddress = hw ∧
      (mkARP hw srcIP cand).sourceProtAddress = srcIP ∧
      (mkARP hw srcIP cand).dstHwAddress = List.replicate 6 0 ∧
      (mkARP hw srcIP cand).dstProtAddress = cand) ∧
    (∀ env iface srcIP cands buf i, ∃ m, m ≤ cands.length ∧
      (sweepLoop env iface srcIP cands buf i).frames =
        (cands.take m).map (mkARP iface.hardwareAddr srcIP)) := by
  refine ⟨?_, ?_, fun env iface srcIP cands buf i => sweepLoop_frames env iface srcIP cands buf i⟩
  · exact fun hw => ⟨rfl, by rfl, rfl⟩
  · exact fun hw srcIP cand => ⟨rfl, rfl, rfl, rfl, rfl, rfl, rfl, by rfl, rfl⟩

/-! ### Reachable panic in the enumerator -/

theorem selectAddr_no_v4 : ∀ addrs : List IPNet, (∀ a ∈ addrs, to4 a.ip = none) →
    selectAddr addrs = some ⟨[], []⟩ := by
  intro addrs h
  induction addrs with
  | nil => rfl
  | cons a rest ih =>
    have ha : to4 a.ip = none := h a (by simp)
    simp only [selectAddr, ha]
    exact ih (fun b hb => h b (by simp [hb]))

/-- C9: the subnet enumerator `ips` is partial — it panics (`none`) exactly
when the IP or the mask has fewer than four bytes; when a non-empty address
list contains no IPv4 address the selection loop of `scanIface` leaves the
zero-value `net.IPNet` (empty IP, empty mask) in place, and the first sweep
then panics inside `ips`, so the panic is reachable from `scanIface`. -/
theorem claim_c9 :
    (∀ ip mask, ips ip mask = none ↔ ip.length < 4 ∨ mask.length < 4) ∧
    (∀ addrs : List IPNet, (∀ a ∈ addrs, to4 a.ip = none) →
      selectAddr addrs = some ⟨[], []⟩) ∧
    (∀ iface env evs, driverLoop iface ⟨[], []⟩ (DriverEvent.tick env :: evs) = none) ∧
    (∀ iface addrs e evs, addrs ≠ [] → (∀ a ∈ addrs, to4 a.ip = none) →
      scanIface iface ⟨some addrs, true, DriverEvent.tick e :: evs⟩ =
        (ScanOutcome.panicked, [LogMsg.scanStart])) := by
  have hdrv : ∀ iface env evs,
      driverLoop iface ⟨[], []⟩ (DriverEvent.tick env :: evs) = none := by
    intro iface env evs
    rfl
  refine ⟨?_, selectAddr_no_v4, hdrv, ?_⟩
  · intro ip mask
    rw [show (ip.length < 4 ↔ beUint32 ip = none) from (beUint32_eq_none_iff ip).symm,
      show (mask.length < 4 ↔ beUint32 mask = none) from (beUint32_eq_none_iff mask).symm]
    cases hip : beUint32 ip <;> cases hm : beUint32 mask <;> simp [ips, hip, hm]
  · intro iface addrs e evs hne h
    simp only [scanIface, if_neg hne, selectAddr_no_v4 addrs h]
    rw [hdrv]
    rfl

/-- Witness for C9: an interface whose only address is the IPv6 `fe80::1`
(no IPv4-convertible address): the scan reaches the first tick and panics. -/
theorem claim_c9_witness :
    scanIface ⟨[0, 1, 2, 3, 4, 5]⟩
      ⟨some [⟨[254, 128, 0, 0, 0, 0, 0, 0, 0, 0, 0, 0, 0, 0, 0, 1],
        [255, 255, 255, 255, 255, 255, 255, 255, 0, 0, 0, 0, 0, 0, 0, 0]⟩], true,
        [DriverEvent.tick ⟨fun _ => false, fun _ _ => none, fun _ => true⟩]⟩ =
      (ScanOutcome.panicked, [LogMsg.scanStart]) :=
  claim_c9.2.2.2 ⟨[0, 1, 2, 3, 4, 5]⟩ _ _ _ (by decide) (by decide)

/-! ### WaitGroup accounting of the coordinator -/

/-- C2 exhibit: `run` adds only one to the WaitGroup per interface
(src/unnamed/part_000:24) although it ends up with two tasks per healthy
interface — `scanIface` and the `readARP` goroutine it spawns — both of
which call `wg.Done()` (the matching `wg.Add(1)` for `readARP`, line 126,
is commented out).  With two healthy interfaces there are 4 tasks but only
2 adds; in the shown interleaving the counter hits 0 after the two
`scanIface` completions, so `wg.Wait` (and hence `run`) returns while both
reply listeners are still running, and the listeners' `Done` calls then
drive the counter negative, which panics a `sync.WaitGroup`. -/
theorem claim_c2_bug :
    tasksSpawned 2 = 4 ∧ wgAddCalls 2 = 2 ∧
    wgCounters 0 (runWgEvents 2) = [1, 2, 1, 0, -1, -2] := by
  decide

/-! ### Cancellation behaviour of the probe driver -/

theorem done_ge (env : SweepEnv)
    (hmono : ∀ j, env.done j = true → env.done (j + 1) = true)
    (k : Nat) (hk : env.done k = true) : ∀ j, k ≤ j → env.done j = true := by
  intro j hj
  induction j, hj using Nat.le_induction with
  | base => exact hk
  | succ n hn ih => exact hmono n ih

theorem sweepLoop_writes_le (env : SweepEnv) (iface : Iface) (srcIP : List Nat)
    (hmono : ∀ j, env.done j = true → env.done (j + 1) = true)
    (k : Nat) (hk : env.done k = true) :
    ∀ cands buf i, (sweepLoop env iface srcIP cands buf i).writes.length ≤ k - i := by
  intro cands
  induction cands with
  | nil => intro buf i; simp [sweepLoop]
  | cons ip rest ih =>
    intro buf i
    by_cases hd : env.done i
    · simp [sweepLoop, hd]
    · have hik : i < k := by
        by_contra hik
        exact hd (done_ge env hmono k hk i (by omega))
      by_cases hwk : env.writeOk i
      · have hrec := ih ((env.serialize (mkEth iface.hardwareAddr)
          (mkARP iface.hardwareAddr srcIP ip)).getD buf) (i + 1)
        simp only [sweepLoop, if_neg hd, if_pos hwk, List.length_cons]
        omega
      · simp only [sweepLoop, if_neg hd, if_neg hwk, List.length_cons,
          List.length_nil]
        omega

/-- C4: the probe driver checks the cancellation signal before every
individual write: a sweep whose cancellation check is true at the current
iteration performs no write from that point on and aborts immediately; if
cancellation has fired before a sweep starts, the driver performs zero
writes and terminates (both through the select's `ctx.Done()` branch and
through a tick whose first in-sweep check already observes cancellation);
and for a monotone cancellation signal observed fired at check `k`, a sweep
started at check index `i` performs at most `k - i` writes. -/
theorem claim_c4 (iface : Iface) :
    (∀ env srcIP ip rest buf i, env.done i = true →
      sweepLoop env iface srcIP (ip :: rest) buf i =
        ⟨WriteResult.canceled, [], [], []⟩) ∧
    (∀ addr evs, driverLoop iface addr (DriverEvent.ctxDone :: evs) =
      some (DriverOutcome.stopped, [])) ∧
    (∀ addr env evs cands, (∀ j, env.done j = true) →
      ips addr.ip addr.mask = some cands → cands ≠ [] →
      driverLoop iface addr (DriverEvent.tick env :: evs) =
        some (DriverOutcome.errored, [])) ∧
    (∀ env srcIP cands buf i k,
      (∀ j, env.done j = true → env.done (j + 1) = true) → env.done k = true →
      (sweepLoop env iface srcIP cands buf i).writes.length ≤ k - i) := by
  refine ⟨?_, ?_, ?_, ?_⟩
  · intro env srcIP ip rest buf i h
    simp [sweepLoop, h]
  · intro addr evs
    rfl
  · intro addr env evs cands hall hips hne
    obtain ⟨c, rest, rfl⟩ := List.exists_cons_of_ne_nil hne
    have hsweep : sweepLoop env iface addr.ip (c :: rest) [] 0 =
        ⟨WriteResult.canceled, [], [], []⟩ := by
      simp [sweepLoop, hall 0]
    simp [driverLoop, writeARP, hips, hsweep]
  · intro env srcIP cands buf i k hmono hk
    exact sweepLoop_writes_le env iface srcIP hmono k hk cands buf i

/-- A cancellation signal that has already fired at every check. -/
def envDoneAll : SweepEnv :=
  ⟨fun _ => true, fun _ arp => some arp.dstProtAddress, fun _ => true⟩

/-- A fixed interface used by the concrete witnesses. -/
def iface0 : Iface := ⟨[10, 11, 12, 13, 14, 15]⟩

/-- The /30 network 192.168.1.10/255.255.255.252 of the specification's
end-to-end scenario. -/
def addr0 : IPNet := ⟨[192, 168, 1, 10], [255, 255, 255, 252]⟩

/-- Witness for C4 at the concrete interface `iface0`, subnet `addr0` and
the everywhere-fired cancellation signal `envDoneAll`. -/
theorem claim_c4_witness :
    sweepLoop envDoneAll iface0 [192, 168, 1, 10] [[192, 168, 1, 8]] [] 0 =
      ⟨WriteResult.canceled, [], [], []⟩ ∧
    driverLoop iface0 addr0 [DriverEvent.ctxDone] =
      some (DriverOutcome.stopped, []) ∧
    driverLoop iface0 addr0 [DriverEvent.tick envDoneAll] =
      some (DriverOutcome.errored, []) ∧
    (sweepLoop envDoneAll iface0 [192, 168, 1, 10]
      [[192, 168, 1, 8]] [] 0).writes.length ≤ 0 - 0 := by
  have h := claim_c4 iface0
  exact ⟨h.1 envDoneAll [192, 168, 1, 10] [192, 168, 1, 8] [] [] 0 rfl,
    h.2.1 addr0 [],
    h.2.2.1 addr0 envDoneAll []
      [[192, 168, 1, 8], [192, 168, 1, 9], [192, 168, 1, 10]]
      (fun _ => rfl) (by decide) (by decide),
    h.2.2.2 envDoneAll [192, 168, 1, 10] [[192, 168, 1, 8]] [] 0 0
      (fun _ h => h) rfl⟩

/-! ### Serialization failures and write failures during a sweep -/

theorem bufSeq_length (env : SweepEnv) (iface : Iface) (srcIP : List Nat) :
    ∀ cands buf, (bufSeq env iface srcIP buf cands).length = cands.length := by
  intro cands
  induction cands with
  | nil => intro buf; rfl
  | cons ip rest ih => intro buf; simp [bufSeq, ih]

theorem sweepLoop_all_ok (env : SweepEnv) (iface : Iface) (srcIP : List Nat)
    (hdone : ∀ i, env.done i = false) (hwrite : ∀ i, env.writeOk i = true) :
    ∀ cands buf i, sweepLoop env iface srcIP cands buf i =
      ⟨WriteResult.ok, bufSeq env iface srcIP buf cands,
        cands.map (mkARP iface.hardwareAddr srcIP),
        cands.filter (fun ip => (env.serialize (mkEth iface.hardwareAddr)
          (mkARP iface.hardwareAddr srcIP ip)).isNone)⟩ := by
  intro cands
  induction cands with
  | nil => intro buf i; simp [sweepLoop, bufSeq]
  | cons ip rest ih =>
    intro buf i
    have hrec := ih ((env.serialize (mkEth iface.hardwareAddr)
      (mkARP iface.hardwareAddr srcIP ip)).getD buf) (i + 1)
    simp only [sweepLoop, hdone i, Bool.false_eq_true, if_false, hwrite i, if_true,
      hrec, bufSeq, List.map_cons, List.filter_cons]
    by_cases hser : (env.serialize (mkEth iface.hardwareAddr)
        (mkARP iface.hardwareAddr srcIP ip)).isNone
    · simp [hser]
    · simp [hser]

/-- C5: when serialization fails for a single candidate during a sweep the
probe driver logs it (the candidate appears in the warning list) and
continues with the remaining candidates: absent cancellation and write
failures the sweep always completes (`ok`), writes once per candidate,
builds every candidate's frame, warns exactly on the candidates whose
serialization failed, and the driver goes on to process subsequent events
instead of terminating. -/
theorem claim_c5 (env : SweepEnv) (iface : Iface)
    (hdone : ∀ i, env.done i = false) (hwrite : ∀ i, env.writeOk i = true) :
    (∀ srcIP cands buf i,
      (sweepLoop env iface srcIP cands buf i).result = WriteResult.ok ∧
      (sweepLoop env iface srcIP cands buf i).writes.length = cands.length ∧
      (sweepLoop env iface srcIP cands buf i).frames =
        cands.map (mkARP iface.hardwareAddr srcIP) ∧
      (sweepLoop env iface srcIP cands buf i).warns =
        cands.filter (fun ip => (env.serialize (mkEth iface.hardwareAddr)
          (mkARP iface.hardwareAddr srcIP ip)).isNone)) ∧
    (∀ addr evs cands, ips addr.ip addr.mask = some cands →
      driverLoop iface addr (DriverEvent.tick env :: evs) =
        (driverLoop iface addr evs).map
          (fun r => (r.1, (sweepLoop env iface addr.ip cands [] 0).writes ++ r.2))) := by
  constructor
  · intro srcIP cands buf i
    rw [sweepLoop_all_ok env iface srcIP hdone hwrite cands buf i]
    exact ⟨rfl, bufSeq_length env iface srcIP cands buf, rfl, rfl⟩
  · intro addr evs cands hips
    simp only [driverLoop, writeARP, hips, Option.map_some']
    rw [sweepLoop_all_ok env iface addr.ip hdone hwrite cands [] 0]

/-- A serializer that fails exactly on candidate 192.168.1.9. -/
def serFail9 : EthFrame → ARPFrame → Option (List Nat) :=
  fun _ arp => if arp.dstProtAddress = [192, 168, 1, 9] then none
    else some arp.dstProtAddress

/-- A sweep environment with no cancellation, no write failure, and a
serialization failure on candidate 192.168.1.9. -/
def envSer9 : SweepEnv := ⟨fun _ => false, serFail9, fun _ => true⟩

/-- Witness for C5: over the /30 of `addr0` with 192.168.1.9 failing to
serialize, the sweep still completes with one write per candidate and warns
exactly on 192.168.1.9. -/
theorem claim_c5_witness :
    (sweepLoop envSer9 iface0 [192, 168, 1, 10]
      [[192, 168, 1, 8], [192, 168, 1, 9], [192, 168, 1, 10]] [] 0).result =
        WriteResult.ok ∧
    (sweepLoop envSer9 iface0 [192, 168, 1, 10]
      [[192, 168, 1, 8], [192, 168, 1, 9], [192, 168, 1, 10]] [] 0).writes.length = 3 ∧
    (sweepLoop envSer9 iface0 [192, 168, 1, 10]
      [[192, 168, 1, 8], [192, 168, 1, 9], [192, 168, 1, 10]] [] 0).warns =
        [[192, 168, 1, 9]] := by
  have h := (claim_c5 envSer9 iface0 (fun _ => rfl) (fun _ => rfl)).1
    [192, 168, 1, 10] [[192, 168, 1, 8], [192, 168, 1, 9], [192, 168, 1, 10]] [] 0
  exact ⟨h.1, h.2.1, by rw [h.2.2.2]; decide⟩

/-- C10: during a sweep free of cancellation and write failures, exactly one
write attempt is made for every candidate, failed serialization or not: the
payload sequence equals the buffer sequence `bufSeq` (the freshly serialized
bytes on success, the buffer's previous contents on failure), with one entry
per candidate; in particular when serialization fails on the first candidate
the first write carries the initial buffer contents (empty at sweep start). -/
theorem claim_c10 (env : SweepEnv) (iface : Iface)
    (hdone : ∀ i, env.done i = false) (hwrite : ∀ i, env.writeOk i = true) :
    ∀ srcIP cands buf i,
      (sweepLoop env iface srcIP cands buf i).writes =
        bufSeq env iface srcIP buf cands ∧
      (sweepLoop env iface srcIP cands buf i).writes.length = cands.length ∧
      (∀ ip rest, cands = ip :: rest →
        env.serialize (mkEth iface.hardwareAddr)
          (mkARP iface.hardwareAddr srcIP ip) = none →
        (sweepLoop env iface srcIP cands buf i).writes.head? = some buf) := by
  intro srcIP cands buf i
  have h := sweepLoop_all_ok env iface srcIP hdone hwrite cands buf i
  refine ⟨by rw [h], ?_, ?_⟩
  · rw [h]
    exact bufSeq_length env iface srcIP cands buf
  · intro ip rest hc hser
    subst hc
    rw [h]
    simp [bufSeq, hser]

/-- A serializer that fails exactly on candidate 192.168.1.8. -/
def serFail8 : EthFrame → ARPFrame → Option (List Nat) :=
  fun _ arp => if arp.dstProtAddress = [192, 168, 1, 8] then none
    else some arp.dstProtAddress

/-- A sweep environment whose serializer fails on the first candidate of the
/30 of `addr0`. -/
def envSer8 : SweepEnv := ⟨fun _ => false, serFail8, fun _ => true⟩

/-- Witness for C10: serialization fails on the very first candidate and the
write is attempted anyway, carrying the empty initial buffer. -/
theorem claim_c10_witness :
    (sweepLoop envSer8 iface0 [192, 168, 1, 10]
      [[192, 168, 1, 8], [192, 168, 1, 9]] [] 0).writes =
      bufSeq envSer8 iface0 [192, 168, 1, 10] [] [[192, 168, 1, 8], [192, 168, 1, 9]] ∧
    (sweepLoop envSer8 iface0 [192, 168, 1, 10]
      [[192, 168, 1, 8], [192, 168, 1, 9]] [] 0).writes.head? = some [] := by
  have h := claim_c10 envSer8 iface0 (fun _ => rfl) (fun _ => rfl)
    [192, 168, 1, 10] [[192, 168, 1, 8], [192, 168, 1, 9]] [] 0
  exact ⟨h.1, h.2.2 [192, 168, 1, 8] [[192, 168, 1, 9]] rfl (by decide)⟩

theorem sweepLoop_write_fail (env : SweepEnv) (iface : Iface) (srcIP : List Nat)
    (hdone : ∀ i, env.done i = false) :
    ∀ k cands buf i, (∀ j, j < k → env.writeOk (i + j) = true) →
      env.writeOk (i + k) = false → k < cands.length →
      (sweepLoop env iface srcIP cands buf i).result = WriteResult.writeError ∧
      (sweepLoop env iface srcIP cands buf i).writes.length = k + 1 ∧
      (sweepLoop env iface srcIP cands buf i).frames =
        (cands.take (k + 1)).map (mkARP iface.hardwareAddr srcIP) := by
  intro k
  induction k with
  | zero =>
    intro cands buf i hjk hfail hlen
    cases cands with
    | nil => simp at hlen
    | cons c rest =>
      have hf : env.writeOk i = false := by simpa using hfail
      refine ⟨?_, ?_, ?_⟩ <;> simp [sweepLoop, hdone i, hf]
  | succ k ih =>
    intro cands buf i hjk hfail hlen
    cases cands with
    | nil => simp at hlen
    | cons c rest =>
      have h0 : env.writeOk i = true := by simpa using hjk 0 (by omega)
      have hjk' : ∀ j, j < k → env.writeOk ((i + 1) + j) = true := by
        intro j hj
        rw [show i + 1 + j = i + (j + 1) from by omega]
        exact hjk (j + 1) (by omega)
      have hfail' : env.writeOk ((i + 1) + k) = false := by
        rw [show i + 1 + k = i + (k + 1) from by omega]
        exact hfail
      have hrec := ih rest ((env.serialize (mkEth iface.hardwareAddr)
          (mkARP iface.hardwareAddr srcIP c)).getD buf) (i + 1)
        hjk' hfail' (by simpa using hlen)
      simp only [sweepLoop, hdone i, Bool.false_eq_true, if_false, h0, if_true]
      exact ⟨hrec.1, by simpa using hrec.2.1, by simpa using hrec.2.2⟩

/-- C6: a failed write to the capture handle aborts the remainder of the
current sweep — the sweep ends with `writeError`, having attempted exactly
the writes up to and including the failing one and having processed only an
initial segment of the candidates — and terminates that interface's driver
entirely (the driver returns `errored` and processes no later event, i.e.
no retry); per-interface scans are computed independently, so this does not
affect other interfaces or the process as a whole. -/
theorem claim_c6 (env : SweepEnv) (iface : Iface) (k : Nat)
    (hdone : ∀ i, env.done i = false)
    (hok : ∀ j, j < k → env.writeOk j = true) (hfail : env.writeOk k = false) :
    (∀ srcIP cands buf, k < cands.length →
      (sweepLoop env iface srcIP cands buf 0).result = WriteResult.writeError ∧
      (sweepLoop env iface srcIP cands buf 0).writes.length = k + 1 ∧
      (sweepLoop env iface srcIP cands buf 0).frames =
        (cands.take (k + 1)).map (mkARP iface.hardwareAddr srcIP)) ∧
    (∀ addr evs cands, ips addr.ip addr.mask = some cands → k < cands.length →
      driverLoop iface addr (DriverEvent.tick env :: evs) =
        some (DriverOutcome.errored, (sweepLoop env iface addr.ip cands [] 0).writes)) ∧
    (∀ (ps : List (Iface × IfaceScanEnv)) (j : Nat),
      (runScans ps)[j]? = ps[j]?.map (fun p => scanIface p.1 p.2)) := by
  have hmain : ∀ srcIP cands buf, k < cands.length →
      (sweepLoop env iface srcIP cands buf 0).result = WriteResult.writeError ∧
      (sweepLoop env iface srcIP cands buf 0).writes.length = k + 1 ∧
      (sweepLoop env iface srcIP cands buf 0).frames =
        (cands.take (k + 1)).map (mkARP iface.hardwareAddr srcIP) := by
    intro srcIP cands buf hlen
    exact sweepLoop_write_fail env iface srcIP hdone k cands buf 0
      (fun j hj => by simpa using hok j hj) (by simpa using hfail) hlen
  refine ⟨hmain, ?_, ?_⟩
  · intro addr evs cands hips hlen
    have hres := (hmain addr.ip cands [] hlen).1
    simp only [driverLoop, writeARP, hips, Option.map_some']
    have hgen : ∀ t : SweepTrace, t.result = WriteResult.writeError →
        (match t.result with
          | WriteResult.ok =>
            Option.map (fun r => (r.1, t.writes ++ r.2)) (driverLoop iface addr evs)
          | _ => some (DriverOutcome.errored, t.writes)) =
          some (DriverOutcome.errored, t.writes) := by
      intro t ht
      rw [ht]
    exact hgen (sweepLoop env iface addr.ip cands [] 0) hres
  · intro ps j
    simp [runScans]

/-- A sweep environment whose second `WritePacketData` call fails. -/
def envWF : SweepEnv :=
  ⟨fun _ => false, fun _ arp => some arp.dstProtAddress, fun i => i == 0⟩

/-- Witness for C6: over the /30 of `addr0`, the write of the second
candidate fails; the sweep ends with `writeError` after exactly two write
attempts (the third candidate is never attempted). -/
theorem claim_c6_witness :
    (sweepLoop envWF iface0 [192, 168, 1, 10]
      [[192, 168, 1, 8], [192, 168, 1, 9], [192, 168, 1, 10]] [] 0).result =
        WriteResult.writeError ∧
    (sweepLoop envWF iface0 [192, 168, 1, 10]
      [[192, 168, 1, 8], [192, 168, 1, 9], [192, 168, 1, 10]] [] 0).writes.length = 2 := by
  have h := (claim_c6 envWF iface0 1 (fun _ => rfl)
    (fun j hj => by
      have hj0 : j = 0 := by omega
      subst hj0
      rfl) rfl).1
    [192, 168, 1, 10] [[192, 168, 1, 8], [192, 168, 1, 9], [192, 168, 1, 10]] []
    (by decide)
  exact ⟨h.1, h.2.1⟩

/-! ### Per-interface setup failures -/

/-- C8 (amended): an interface whose address list is empty is skipped
silently — the original claim's logged warning does not exist for this case
— while an interface whose capture session fails to open is skipped with a
logged error line; an `Addrs()` error likewise skips only that interface
with a log; per-interface scans are computed independently, so none of
these failures affects the other interfaces' scans. -/
theorem claim_c8 (iface : Iface) (env : IfaceScanEnv) :
    (env.addrsResult = some [] →
      scanIface iface env = (ScanOutcome.skippedNoAddrs, [])) ∧
    (∀ addrs addr, env.addrsResult = some addrs → addrs ≠ [] →
      selectAddr addrs = some addr → env.openOk = false →
      scanIface iface env = (ScanOutcome.skippedOpenError, [LogMsg.errOpen])) ∧
    (env.addrsResult = none →
      scanIface iface env = (ScanOutcome.skippedAddrsError, [LogMsg.errAddrs])) ∧
    (∀ (ps : List (Iface × IfaceScanEnv)) (j : Nat),
      (runScans ps)[j]? = ps[j]?.map (fun p => scanIface p.1 p.2)) := by
  refine ⟨?_, ?_, ?_, ?_⟩
  · intro h
    simp [scanIface, h]
  · intro addrs addr h hne hsel hopen
    simp [scanIface, h, hne, hsel, hopen]
  · intro h
    simp [scanIface, h]
  · intro ps j
    simp [runScans]

/-- Witness for C8: an interface with one IPv4 address whose capture session
fails to open is skipped with exactly one logged error line. -/
theorem claim_c8_witness :
    scanIface iface0 ⟨some [⟨[10, 0, 0, 5], [255, 0, 0, 0]⟩], false, []⟩ =
      (ScanOutcome.skippedOpenError, [LogMsg.errOpen]) :=
  (claim_c8 iface0 ⟨some [⟨[10, 0, 0, 5], [255, 0, 0, 0]⟩], false, []⟩).2.1
    [⟨[10, 0, 0, 5], [255, 0, 0, 0]⟩] ⟨[10, 0, 0, 5], [255, 0, 0, 0]⟩
    rfl (by decide) (by decide) rfl

/-- Counterexample to C8 as stated: an eligible interface whose address list
is empty is skipped without any logged warning — the produced log list is
empty, while the claim requires a logged warning for this case. -/
theorem claim_c8_counterexample :
    scanIface iface0 ⟨some [], true, []⟩ = (ScanOutcome.skippedNoAddrs, []) := by
  decide

/-- Witness for C3: a well-formed ARP reply from a foreign hardware address
is emitted as a discovery carrying its protocol and hardware address. -/
theorem claim_c3_witness :
    processPacket [1, 2, 3, 4, 5, 6]
      (some ⟨2, [7, 8, 9, 10, 11, 12], [192, 168, 1, 77]⟩) =
      some ([192, 168, 1, 77], [7, 8, 9, 10, 11, 12]) :=
  claim_c3.2.2.1 [1, 2, 3, 4, 5, 6] ⟨2, [7, 8, 9, 10, 11, 12], [192, 168, 1, 77]⟩
    rfl (by decide)
